import Mathlib

/-!
Shallow embedding of the Python_util repository (src/api.py and src/app.py):
a PDF-summarization pipeline that splits text into chunks, summarizes each
chunk through a backend (a remote Hugging Face HTTP call in api.py, a local
model in app.py) and joins the results.  Python strings are modeled as
`List Char`, parsed JSON values as the inductive `Json`, Python exceptions
that escape a function as the `Except PyExn` error channel.
-/

/-- Characters of a Python string. -/
abbrev PyStr := List Char

/-- A parsed JSON value, as produced by `response.json()` in api.py.
Numbers are modeled as integers (no claim depends on float values). -/
inductive Json where
  | str (s : PyStr)
  | num (n : Int)
  | bool (b : Bool)
  | null
  | arr (xs : List Json)
  | obj (fields : List (PyStr × Json))

/-- A Python exception that propagates out of a function uncaught. -/
inductive PyExn where
  | indexError
  | typeError
  | keyError
deriving DecidableEq

/-- The single-quote character, used by Python repr of strings. -/
def pyQuote : Char := Char.ofNat 39

mutual
/-- Models Python `repr` of a parsed-JSON value (strings are quoted,
`True`/`False`/`None` spelled as in Python).  Only its totality matters to
the claims; it renders nested values the way Python does. -/
def pyRepr : Json → PyStr
  | .str s => pyQuote :: (s ++ [pyQuote])
  | .num n => (toString n).toList
  | .bool b => if b then "True".toList else "False".toList
  | .null => "None".toList
  | .arr xs => '[' :: (pyReprElems xs ++ [']'])
  | .obj fields => "\x7b".toList ++ pyReprFields fields ++ "\x7d".toList

/-- Comma-separated reprs of the elements of a Python list. -/
def pyReprElems : List Json → PyStr
  | [] => []
  | [x] => pyRepr x
  | x :: y :: xs => pyRepr x ++ ", ".toList ++ pyReprElems (y :: xs)

/-- Comma-separated reprs of the key-value pairs of a Python dict. -/
def pyReprFields : List (PyStr × Json) → PyStr
  | [] => []
  | [(k, v)] => (pyQuote :: (k ++ [pyQuote])) ++ ": ".toList ++ pyRepr v
  | (k, v) :: kv :: kvs =>
      (pyQuote :: (k ++ [pyQuote])) ++ ": ".toList ++ pyRepr v
        ++ ", ".toList ++ pyReprFields (kv :: kvs)
end

/-- Models Python `str(data)` on a parsed-JSON value: a bare string prints
itself, containers print via `repr` of their parts. -/
def pyStr : Json → PyStr
  | .str s => s
  | .num n => pyRepr (.num n)
  | .bool b => pyRepr (.bool b)
  | .null => pyRepr .null
  | .arr xs => pyRepr (.arr xs)
  | .obj fields => pyRepr (.obj fields)

/-- Models Python's substring test `needle in s` on strings: true iff
`needle` occurs contiguously in `s`. -/
def isSubstringOf (needle : PyStr) : PyStr → Bool
  | [] => needle.isEmpty
  | c :: rest => needle.isPrefixOf (c :: rest) || isSubstringOf needle rest

/-- Models the Python expression `needle in v` for a string `needle`:
dict → key test, string → substring test, list → membership test,
anything else (number, bool, None) raises `TypeError`. -/
def pyContains (needle : PyStr) : Json → Except PyExn Bool
  | .obj fields => .ok (fields.any (fun kv => kv.1 == needle))
  | .str s => .ok (isSubstringOf needle s)
  | .arr xs => .ok (xs.any (fun x => match x with | .str t => t == needle | _ => false))
  | _ => .error .typeError

/-- Models the Python expression `v[needle]` for a string `needle`:
dict lookup (KeyError if absent); any other value raises `TypeError`
(string, list and number subscripts by a string all do in Python). -/
def pySubscript (needle : PyStr) : Json → Except PyExn Json
  | .obj fields =>
      match fields.find? (fun kv => kv.1 == needle) with
      | some kv => .ok kv.2
      | none => .error .keyError
  | _ => .error .typeError

/-- The outcome of parsing the HTTP response body in api.py:
`response.json()` either raises `JSONDecodeError` (a `RequestException`
subclass in the `requests` library) or yields a parsed JSON value. -/
inductive BodyOutcome where
  | malformedJson (msg : PyStr)
  | parsedJson (data : Json)

/-- The outcome of the `requests.post` call in `hf_summarize`:
either a transport-level `RequestException` (connection failure, timeout,
...) carrying its message, or an HTTP response with a status code and a
body. -/
inductive HttpOutcome where
  | transportError (msg : PyStr)
  | response (status : Nat) (body : BodyOutcome)

/-- The literal error-message head produced by the `except` branch of
`hf_summarize`: `f"Error calling Hugging Face API: {str(e)}"`. -/
def hfErrorTag : PyStr := "Error calling Hugging Face API: ".toList

/-- The key `"summary_text"` looked up in the first element of the
response body by `hf_summarize`. -/
def summary_text_key : PyStr := "summary_text".toList

/-- Models the message of the `HTTPError` raised by
`response.raise_for_status()` for a status in `[400, 600)`; `requests`
formats it from the status code (and reason/url, not tracked here). -/
def httpErrorMessage (status : Nat) : PyStr :=
  (toString status).toList
    ++ (if status < 500 then " Client Error".toList else " Server Error".toList)

/-- src/api.py `hf_summarize` (lines 37-48), as a function of the outcome of
its HTTP interaction.  `requests.post` raising, `raise_for_status` raising
on a 4xx/5xx status, and `response.json()` raising `JSONDecodeError` are
all `RequestException`s, caught and turned into the inline error string.
The success path checks `isinstance(data, list) and "summary_text" in
data[0]` (short-circuiting, so a non-list goes to `str(data)`); `data[0]`
on an empty list raises `IndexError`, and the membership test or the
subscript can raise `TypeError` — none of these are caught. -/
def hf_summarize (outcome : HttpOutcome) : Except PyExn Json :=
  match outcome with
  | .transportError msg => .ok (.str (hfErrorTag ++ msg))
  | .response status body =>
    if 400 ≤ status ∧ status < 600 then
      .ok (.str (hfErrorTag ++ httpErrorMessage status))
    else
      match body with
      | .malformedJson msg => .ok (.str (hfErrorTag ++ msg))
      | .parsedJson data =>
        match data with
        | .arr [] => .error .indexError
        | .arr (x :: _) =>
          match pyContains summary_text_key x with
          | .error e => .error e
          | .ok true => pySubscript summary_text_key x
          | .ok false => .ok (.str (pyStr data))
        | _ => .ok (.str (pyStr data))

/-- The `while start < len(text)` loop of src/api.py `chunk_text`
(lines 63-75), with an explicit fuel bound on the number of iterations:
`none` means the loop did not finish within `fuel` iterations.  Each
iteration appends the slice `text[start : start + max_length]` and advances
`start` by `max_length - overlap` (for `overlap ≤ max_length` the natural
subtraction agrees with Python's signed stride; `overlap = max_length`
gives the stride-0 non-terminating loop of the source). -/
def chunkLoopFuel (text : PyStr) (max_length overlap : Nat) :
    Nat → Nat → Option (List PyStr)
  | 0, _ => none
  | fuel + 1, start =>
    if start < text.length then
      match chunkLoopFuel text max_length overlap fuel (start + (max_length - overlap)) with
      | none => none
      | some rest => some ((text.drop start).take max_length :: rest)
    else
      some []

/-- src/api.py `chunk_text` (lines 63-75).  `text.length + 1` iterations
always suffice when `overlap < max_length` (proved in
`chunkLoopFuel_closed_form`); the `getD` default is never reached for such
configurations. -/
def chunk_text (text : PyStr) (max_length overlap : Nat) : List PyStr :=
  (chunkLoopFuel text max_length overlap (text.length + 1) 0).getD []

/-- Models Python `sep.join(parts)`. -/
def pyJoin (sep : PyStr) : List PyStr → PyStr
  | [] => []
  | [x] => x
  | x :: y :: xs => x ++ sep ++ pyJoin sep (y :: xs)

/-- Models Python `s.strip()`: removes trailing, then leading whitespace
(the order does not matter in Python; trailing-first eases reasoning). -/
def pyStrip (l : PyStr) : PyStr :=
  ((l.reverse.dropWhile Char.isWhitespace).reverse).dropWhile Char.isWhitespace

/-- The `for chunk in chunks: summaries.append(hf_summarize(chunk))` loop of
`summarize_long_text`: an exception from the backend call propagates
immediately, otherwise the results are collected in order. -/
def collectSummaries (backend : PyStr → Except PyExn Json) :
    List PyStr → Except PyExn (List Json)
  | [] => .ok []
  | c :: cs =>
    match backend c with
    | .error e => .error e
    | .ok s =>
      match collectSummaries backend cs with
      | .error e => .error e
      | .ok rest => .ok (s :: rest)

/-- Checks that every collected result is a Python string, as
`" ".join(summaries)` requires (a non-string element raises `TypeError`). -/
def asStrList : List Json → Option (List PyStr)
  | [] => some []
  | .str s :: rest => (asStrList rest).map (fun l => s :: l)
  | _ => none

/-- src/api.py `summarize_long_text` (lines 78-85), parameterized by the
behavior of the `hf_summarize` call on each chunk (in the source this is
`fun c => hf_summarize (net c)` for the ambient network behavior `net`).
Chunks with `max_length=1000, overlap=100`, results joined by
`" ".join(summaries)` — with no strip. -/
def summarize_long_text (backend : PyStr → Except PyExn Json) (text : PyStr) :
    Except PyExn PyStr :=
  match collectSummaries backend (chunk_text text 1000 100) with
  | .error e => .error e
  | .ok summaries =>
    match asStrList summaries with
    | some strs => .ok (pyJoin [' '] strs)
    | none => .error .typeError

/-- Python truthiness of a parsed-JSON value (`if not text:`). -/
def pyTruthy : Json → Bool
  | .str s => !s.isEmpty
  | .num n => n != 0
  | .bool b => b
  | .null => false
  | .arr xs => !xs.isEmpty
  | .obj fields => !fields.isEmpty

/-- An HTTP response of the FastAPI service: a status code and a JSON body. -/
structure ApiResponse where
  status : Nat
  body : Json

/-- Number of backend calls a run of `summarize_long_text` performs on the
given chunk list: all of them when none raises, otherwise the calls up to
and including the first raising one. -/
def callsMade (backend : PyStr → Except PyExn Json) : List PyStr → Nat
  | [] => 0
  | c :: cs =>
    match backend c with
    | .ok _ => 1 + callsMade backend cs
    | .error _ => 1

/-- The 400 response body `{"error": "No text provided"}` shared by the
`/summarize` and `/humanize` endpoints. -/
def noTextBody : Json := Json.obj [("error".toList, Json.str "No text provided".toList)]

/-- src/api.py `summarize_api` (lines 111-119): `data.get("text", "")`
modeled as an optional string field; a missing or empty `text` returns 400
with `{"error": "No text provided"}` before any backend call.  The second
component counts backend calls performed; an exception escaping
`summarize_long_text` becomes FastAPI's 500 Internal Server Error. -/
def summarize_api (backend : PyStr → Except PyExn Json) (textField : Option PyStr) :
    ApiResponse × Nat :=
  let text := textField.getD []
  if text.isEmpty then
    (⟨400, noTextBody⟩, 0)
  else
    match summarize_long_text backend text with
    | .ok summary =>
        (⟨200, Json.obj [("summary".toList, Json.str summary)]⟩,
         callsMade backend (chunk_text text 1000 100))
    | .error _ =>
        (⟨500, Json.str "Internal Server Error".toList⟩,
         callsMade backend (chunk_text text 1000 100))

/-- src/api.py `humanize_api` (lines 122-130): identical to
`summarize_api` except the success body key is `"humanized"`. -/
def humanize_api (backend : PyStr → Except PyExn Json) (textField : Option PyStr) :
    ApiResponse × Nat :=
  let text := textField.getD []
  if text.isEmpty then
    (⟨400, noTextBody⟩, 0)
  else
    match summarize_long_text backend text with
    | .ok humanized =>
        (⟨200, Json.obj [("humanized".toList, Json.str humanized)]⟩,
         callsMade backend (chunk_text text 1000 100))
    | .error _ =>
        (⟨500, Json.str "Internal Server Error".toList⟩,
         callsMade backend (chunk_text text 1000 100))

/-- One invocation of the local `summarizer` model in src/app.py, with the
keyword options it was passed. -/
structure SummCall where
  input : PyStr
  max_length : Nat
  min_length : Nat
  do_sample : Bool
deriving DecidableEq

/-- The chunk list of src/app.py `summarize_text` (line 81):
`[text[i:i + max_chunk] for i in range(0, len(text), max_chunk)]` with
`max_chunk = 1000` — non-overlapping windows. -/
def app_chunks (text : PyStr) : List PyStr :=
  (List.range ((text.length + 999) / 1000)).map
    (fun i => (text.drop (i * 1000)).take 1000)

/-- src/app.py `summarize_text` (lines 73-95), parameterized by the local
model `summarizer` (input, max_length, min_length, do_sample ↦ summary).
Accumulates `result[0]["summary_text"] + " "` per chunk and strips the
final string; the second component records each model invocation. -/
def summarize_text (summarizer : PyStr → Nat → Nat → Bool → PyStr) (text : PyStr) :
    PyStr × List SummCall :=
  let chunks := app_chunks text
  let r := chunks.foldl
    (fun (acc : PyStr × List SummCall) (chunk : PyStr) =>
      (acc.1 ++ summarizer chunk 130 30 false ++ [' '],
       acc.2 ++ [⟨chunk, 130, 30, false⟩]))
    ([], [])
  (pyStrip r.1, r.2)

/-- src/app.py `humanize_text` (lines 101-109): a single model call with
`max_length=200, min_length=50, do_sample=True`. -/
def humanize_text (summarizer : PyStr → Nat → Nat → Bool → PyStr) (text : PyStr) :
    PyStr × List SummCall :=
  (summarizer text 200 50 true, [⟨text, 200, 50, true⟩])

/-! ## Helper lemmas about the chunking loop -/

/-- One loop iteration removes exactly one chunk from the ceiling count
`(n + s - 1) / s` of remaining chunks. -/
lemma kf_succ (s n : Nat) (hs : 0 < s) (hn : 0 < n) :
    (n + s - 1) / s = (n - s + s - 1) / s + 1 := by
  have h1 : n + s - 1 = (n - 1) + s := by omega
  rw [h1, Nat.add_div_right _ hs]
  rcases le_or_lt s n with hsn | hns
  · have h2 : n - s + s - 1 = n - 1 := by omega
    rw [h2]
  · have h2 : n - s + s - 1 = s - 1 := by omega
    rw [h2]
    have h3 : (s - 1) / s = 0 := Nat.div_eq_of_lt (by omega)
    have h4 : (n - 1) / s = 0 := Nat.div_eq_of_lt (by omega)
    omega

/-- With a positive stride, the loop of `chunk_text` finishes within any
fuel exceeding the ceiling count of remaining chunks, and produces exactly
the windows `text[start + i*stride : start + i*stride + max_length]`. -/
lemma chunkLoopFuel_closed_form (text : PyStr) (max_length overlap : Nat)
    (h : overlap < max_length) :
    ∀ fuel start,
      (text.length - start + (max_length - overlap) - 1) / (max_length - overlap) < fuel →
      chunkLoopFuel text max_length overlap fuel start =
        some ((List.range
            ((text.length - start + (max_length - overlap) - 1) / (max_length - overlap))).map
          (fun i => (text.drop (start + i * (max_length - overlap))).take max_length)) := by
  intro fuel
  induction fuel with
  | zero => intro start hlt; exact absurd hlt (Nat.not_lt_zero _)
  | succ fuel ih =>
    intro start hlt
    have hs : 0 < max_length - overlap := by omega
    by_cases hst : start < text.length
    · have hn : 0 < text.length - start := by omega
      have hk := kf_succ (max_length - overlap) (text.length - start) hs hn
      have hsub : text.length - (start + (max_length - overlap))
          = text.length - start - (max_length - overlap) := by omega
      have hrec : (text.length - (start + (max_length - overlap)) + (max_length - overlap) - 1)
          / (max_length - overlap) < fuel := by
        rw [hsub]
        rw [hk] at hlt
        exact Nat.lt_of_succ_lt_succ hlt
      have hrw := ih (start + (max_length - overlap)) hrec
      rw [hsub] at hrw
      simp only [chunkLoopFuel, if_pos hst, hrw]
      rw [hk, List.range_succ_eq_map, List.map_cons, List.map_map]
      have hzero : start + 0 * (max_length - overlap) = start := by ring
      rw [hzero]
      have hfe : ((fun i => (text.drop (start + i * (max_length - overlap))).take max_length)
            ∘ Nat.succ)
          = (fun i => (text.drop
              (start + (max_length - overlap) + i * (max_length - overlap))).take max_length) := by
        funext i
        have harg : start + Nat.succ i * (max_length - overlap)
            = start + (max_length - overlap) + i * (max_length - overlap) := by
          rw [Nat.succ_eq_add_one]; ring
        simp only [Function.comp, harg]
      rw [hfe]
    · have hz : text.length - start = 0 := by omega
      have hk0 : (text.length - start + (max_length - overlap) - 1) / (max_length - overlap)
          = 0 := by
        rw [hz]; exact Nat.div_eq_of_lt (by omega)
      simp only [chunkLoopFuel, if_neg hst, hk0, List.range_zero, List.map_nil]

/-- The ceiling chunk count is at most the text length, so
`text.length + 1` fuel always suffices for a positive stride. -/
lemma numChunks_lt (len s : Nat) (hs : 0 < s) : (len + s - 1) / s < len + 1 := by
  rw [Nat.div_lt_iff_lt_mul hs]
  have hexp : (len + 1) * s = len * s + s := by ring
  have hls : len ≤ len * s := Nat.le_mul_of_pos_right len hs
  omega

/-- For a valid configuration, `chunk_text` equals the list of windows
starting at `i * (max_length - overlap)` for `i` below the ceiling count. -/
lemma chunk_text_eq_map (text : PyStr) (max_length overlap : Nat) (h : overlap < max_length) :
    chunk_text text max_length overlap =
      (List.range ((text.length + (max_length - overlap) - 1) / (max_length - overlap))).map
        (fun i => (text.drop (i * (max_length - overlap))).take max_length) := by
  have hs : 0 < max_length - overlap := by omega
  have hfuel : (text.length - 0 + (max_length - overlap) - 1) / (max_length - overlap)
      < text.length + 1 := by
    rw [Nat.sub_zero]; exact numChunks_lt _ _ hs
  have hcf := chunkLoopFuel_closed_form text max_length overlap h (text.length + 1) 0 hfuel
  rw [chunk_text, hcf]
  simp

/-! ## Helper lemmas about aggregation -/

/-- Collecting over a backend that always returns a string succeeds with the
mapped list. -/
lemma collectSummaries_ok_str (f : PyStr → PyStr) (cs : List PyStr) :
    collectSummaries (fun c => .ok (.str (f c))) cs
      = .ok (cs.map (fun c => Json.str (f c))) := by
  induction cs with
  | nil => rfl
  | cons c cs ih => rw [collectSummaries, ih]; rfl

/-- A list of string results passes the join's all-strings check. -/
lemma asStrList_map_str (f : PyStr → PyStr) (cs : List PyStr) :
    asStrList (cs.map (fun c => Json.str (f c))) = some (cs.map f) := by
  induction cs with
  | nil => rfl
  | cons c cs ih => simp [asStrList, ih]

/-- When every per-chunk call returns a string, `summarize_long_text`
returns the space-join of those strings in chunk order — with no strip. -/
lemma summarize_long_text_all_ok (f : PyStr → PyStr) (text : PyStr) :
    summarize_long_text (fun c => .ok (.str (f c))) text =
      .ok (pyJoin [' '] ((chunk_text text 1000 100).map f)) := by
  rw [summarize_long_text, collectSummaries_ok_str f (chunk_text text 1000 100)]
  dsimp only
  rw [asStrList_map_str f (chunk_text text 1000 100)]

/-- Unrolling the accumulation loop of src/app.py `summarize_text`. -/
lemma summarize_text_foldl (summarizer : PyStr → Nat → Nat → Bool → PyStr) :
    ∀ (cs : List PyStr) (a : PyStr) (b : List SummCall),
      cs.foldl
        (fun (acc : PyStr × List SummCall) (chunk : PyStr) =>
          (acc.1 ++ summarizer chunk 130 30 false ++ [' '],
           acc.2 ++ [⟨chunk, 130, 30, false⟩]))
        (a, b)
      = (a ++ (cs.map (fun c => summarizer c 130 30 false ++ [' '])).flatten,
         b ++ cs.map (fun c => ⟨c, 130, 30, false⟩)) := by
  intro cs
  induction cs with
  | nil => intro a b; simp
  | cons c cs ih =>
    intro a b
    simp only [List.foldl_cons]
    rw [ih]
    simp [List.append_assoc]

/-- Appending a trailing separator to every part equals the separator-join
followed by one trailing separator (for a nonempty list). -/
lemma join_trail_eq (f : PyStr → PyStr) (cs : List PyStr) :
    (cs.map (fun c => f c ++ [' '])).flatten =
      pyJoin [' '] (cs.map f) ++ (if cs.isEmpty then [] else [' ']) := by
  induction cs with
  | nil => rfl
  | cons c cs ih =>
    cases cs with
    | nil => simp [pyJoin]
    | cons d ds =>
      simp only [List.map_cons] at ih ⊢
      rw [List.flatten_cons, ih]
      simp only [List.isEmpty_cons, Bool.false_eq_true, if_false]
      simp [pyJoin, List.append_assoc]

/-- Stripping ignores a trailing space. -/
lemma pyStrip_append_space (l : PyStr) : pyStrip (l ++ [' ']) = pyStrip l := by
  have hws : Char.isWhitespace ' ' = true := rfl
  simp [pyStrip, List.reverse_append, List.dropWhile_cons, hws]

/-- The final string of src/app.py `summarize_text` is the stripped
space-join of the per-chunk model outputs. -/
lemma summarize_text_final (summarizer : PyStr → Nat → Nat → Bool → PyStr) (text : PyStr) :
    (summarize_text summarizer text).1 =
      pyStrip (pyJoin [' '] ((app_chunks text).map (fun c => summarizer c 130 30 false))) := by
  rw [summarize_text]
  simp only [summarize_text_foldl summarizer (app_chunks text) [] [], List.nil_append]
  rw [join_trail_eq]
  cases hc : (app_chunks text).isEmpty
  · simp [hc, pyStrip_append_space]
  · simp [hc]

/-- The recorded calls of src/app.py `summarize_text` are one per chunk,
in order, each with the summarize options. -/
lemma summarize_text_calls (summarizer : PyStr → Nat → Nat → Bool → PyStr) (text : PyStr) :
    (summarize_text summarizer text).2 =
      (app_chunks text).map (fun c => ⟨c, 130, 30, false⟩) := by
  rw [summarize_text]
  simp only [summarize_text_foldl summarizer (app_chunks text) [] [], List.nil_append]

/-- Every offset below `len` is covered by the window of chunk `p / s`. -/
lemma chunk_cov_arith (p len s m : Nat) (hs : 0 < s) (hsm : s ≤ m) (hp : p < len) :
    p / s * s ≤ p ∧ p < p / s * s + m ∧ p / s < (len + s - 1) / s := by
  have h1 : s * (p / s) + p % s = p := Nat.div_add_mod p s
  have h2 : p % s < s := Nat.mod_lt p hs
  have hle : p / s * s ≤ p := Nat.div_mul_le_self p s
  refine ⟨hle, ?_, ?_⟩
  · calc p = s * (p / s) + p % s := h1.symm
      _ < s * (p / s) + s := Nat.add_lt_add_left h2 _
      _ = p / s * s + s := by rw [Nat.mul_comm]
      _ ≤ p / s * s + m := Nat.add_le_add_left hsm _
  · have hp1 : p ≤ len - 1 := by omega
    have hq : p / s ≤ (len - 1) / s := Nat.div_le_div_right hp1
    have hrw : len + s - 1 = (len - 1) + s := by omega
    rw [hrw, Nat.add_div_right _ hs]
    omega

/-- Every chunk index below the ceiling count starts inside the text. -/
lemma chunk_index_lt (i len s : Nat) (hs : 0 < s) (hi : i < (len + s - 1) / s) :
    i * s < len := by
  rcases Nat.eq_zero_or_pos len with hlen | hlen
  · subst hlen
    have hz : (0 + s - 1) / s = 0 := by
      rw [Nat.zero_add]; exact Nat.div_eq_of_lt (by omega)
    omega
  · have hrw : len + s - 1 = (len - 1) + s := by omega
    rw [hrw, Nat.add_div_right _ hs] at hi
    have hile : i ≤ (len - 1) / s := by omega
    have h2 : i * s ≤ (len - 1) / s * s := Nat.mul_le_mul_right s hile
    have h3 : (len - 1) / s * s ≤ len - 1 := Nat.div_mul_le_self _ _
    omega

/-- An environment for `summarize_long_text` in which the HTTP call for a
chunk `c` fails at transport level with message `m` whenever
`failMsg c = some m`, and otherwise succeeds with the documented response
shape `[{"summary_text": ok c}]`. -/
def mixedNet (failMsg : PyStr → Option PyStr) (ok : PyStr → PyStr) (c : PyStr) :
    HttpOutcome :=
  match failMsg c with
  | some m => .transportError m
  | none => .response 200 (.parsedJson (.arr [.obj [(summary_text_key, .str (ok c))]]))

/-- A transport failure comes back from `hf_summarize` as the inline error
string — an ordinary `.ok` string, not an error. -/
lemma hf_transport (m : PyStr) :
    hf_summarize (.transportError m) = .ok (.str (hfErrorTag ++ m)) := rfl

/-- A 200 response in the documented shape yields the summary. -/
lemma hf_success (s : PyStr) :
    hf_summarize (.response 200 (.parsedJson (.arr [.obj [(summary_text_key, .str s)]])))
      = .ok (.str s) := rfl

/-- `hf_summarize` over a mixed environment: the chunk's failure message
inline when it failed, its summary otherwise. -/
lemma hf_mixedNet (failMsg : PyStr → Option PyStr) (ok : PyStr → PyStr) (c : PyStr) :
    hf_summarize (mixedNet failMsg ok c) =
      .ok (.str (match failMsg c with | some m => hfErrorTag ++ m | none => ok c)) := by
  cases hgc : failMsg c <;> simp [mixedNet, hgc] <;> rfl

/-! ## Claims -/

/-- Claim C1, as stated, is false: its conjunct "only the final chunk may
be shorter than maxLength" fails.  With text `"abcd"`, `max_length = 3`,
`overlap = 2` the chunks are `["abc", "bcd", "cd", "d"]`: the chunk at
index 2 has length 2 < 3 yet is not the final chunk (index 3 exists). -/
theorem chunk_text_nonfinal_short_chunk :
    chunk_text "abcd".toList 3 2
      = ["abc".toList, "bcd".toList, "cd".toList, "d".toList]
    ∧ 2 + 1 < (chunk_text "abcd".toList 3 2).length
    ∧ ((chunk_text "abcd".toList 3 2).getD 2 []).length < 3 := by
  refine ⟨rfl, ?_, ?_⟩ <;> decide

/-- Claim C1 (amended): for every text and valid configuration
(`overlap < max_length`), `chunk_text` emits exactly the windows
`[i*stride, min(i*stride + max_length, len))` for `i` below
`ceil(len / stride)` with `stride = max_length - overlap` (so chunk `i`
starts at `i*stride` and consecutive starts differ by the stride); the
windows cover every offset of `[0, len)` with no gaps; and every chunk
shorter than `max_length` extends to the end of the text.  (The original
"only the final chunk may be shorter" is false — see the counterexample —
because with `overlap > 0` several trailing windows can be cut off by the
end of the text.) -/
theorem chunk_text_window_structure (text : PyStr) (max_length overlap : Nat)
    (h : overlap < max_length) :
    chunk_text text max_length overlap =
      (List.range ((text.length + (max_length - overlap) - 1) / (max_length - overlap))).map
        (fun i => (text.drop (i * (max_length - overlap))).take max_length)
    ∧ (∀ p, p < text.length →
        ∃ i, i < (text.length + (max_length - overlap) - 1) / (max_length - overlap)
          ∧ i * (max_length - overlap) ≤ p ∧ p < i * (max_length - overlap) + max_length)
    ∧ (∀ i, i < (text.length + (max_length - overlap) - 1) / (max_length - overlap) →
        ((text.drop (i * (max_length - overlap))).take max_length).length < max_length →
        i * (max_length - overlap)
          + ((text.drop (i * (max_length - overlap))).take max_length).length
          = text.length) := by
  have hs : 0 < max_length - overlap := by omega
  have hsm : max_length - overlap ≤ max_length := Nat.sub_le _ _
  refine ⟨chunk_text_eq_map text max_length overlap h, ?_, ?_⟩
  · intro p hp
    obtain ⟨h1, h2, h3⟩ :=
      chunk_cov_arith p text.length (max_length - overlap) max_length hs hsm hp
    exact ⟨p / (max_length - overlap), h3, h1, h2⟩
  · intro i hi hshort
    have hlen : ((text.drop (i * (max_length - overlap))).take max_length).length
        = min max_length (text.length - i * (max_length - overlap)) := by
      simp [List.length_take, List.length_drop]
    have hilt : i * (max_length - overlap) < text.length :=
      chunk_index_lt i text.length (max_length - overlap) hs hi
    rw [hlen] at hshort ⊢
    omega

/-- Witness for C1 at text `"ab"`, `max_length = 2`, `overlap = 1`. -/
theorem chunk_text_window_structure_witness :
    chunk_text "ab".toList 2 1 =
      (List.range (("ab".toList.length + (2 - 1) - 1) / (2 - 1))).map
        (fun i => ("ab".toList.drop (i * (2 - 1))).take 2)
    ∧ (∀ p, p < "ab".toList.length →
        ∃ i, i < ("ab".toList.length + (2 - 1) - 1) / (2 - 1)
          ∧ i * (2 - 1) ≤ p ∧ p < i * (2 - 1) + 2)
    ∧ (∀ i, i < ("ab".toList.length + (2 - 1) - 1) / (2 - 1) →
        (("ab".toList.drop (i * (2 - 1))).take 2).length < 2 →
        i * (2 - 1) + (("ab".toList.drop (i * (2 - 1))).take 2).length
          = "ab".toList.length) :=
  chunk_text_window_structure "ab".toList 2 1 (by decide)

/-- Claim C2, as stated, is false: no metadata reporting the failed chunk
index exists.  `summarize_long_text` returns only a string; at the concrete
input below, the run in which the single chunk's HTTP call fails at
transport level is indistinguishable from a run in which it succeeds with
the error text as its summary — the caller receives the identical value,
so no failed-chunk index is available. -/
theorem summarize_long_text_no_failure_metadata :
    summarize_long_text (fun _ => hf_summarize (.transportError "boom".toList)) "ab".toList
      = .ok (hfErrorTag ++ "boom".toList)
    ∧ summarize_long_text
        (fun _ => hf_summarize (.response 200 (.parsedJson
          (.arr [.obj [(summary_text_key, .str (hfErrorTag ++ "boom".toList))]]))))
        "ab".toList
      = .ok (hfErrorTag ++ "boom".toList) :=
  ⟨rfl, rfl⟩

/-- Claim C2 (amended): if the HTTP calls of some chunks fail at transport
level while the others succeed, the final output still contains the
successful chunks' summaries in original chunk order, each failed chunk's
position is filled with the inline placeholder string
`"Error calling Hugging Face API: <message>"`, and the run as a whole does
not fail (the result is `.ok`) — but the failed chunk indices are NOT
reported in any metadata: the caller receives only the joined string (see
the counterexample). -/
theorem summarize_long_text_inline_error_degradation
    (failMsg : PyStr → Option PyStr) (ok : PyStr → PyStr) (text : PyStr) :
    summarize_long_text (fun c => hf_summarize (mixedNet failMsg ok c)) text =
      .ok (pyJoin [' '] ((chunk_text text 1000 100).map
        (fun c => match failMsg c with | some m => hfErrorTag ++ m | none => ok c))) := by
  have hfun : (fun c => hf_summarize (mixedNet failMsg ok c))
      = (fun c => Except.ok (Json.str
          (match failMsg c with | some m => hfErrorTag ++ m | none => ok c))) :=
    funext fun c => hf_mixedNet failMsg ok c
  rw [hfun]
  exact summarize_long_text_all_ok
    (fun c => match failMsg c with | some m => hfErrorTag ++ m | none => ok c) text

/-- Claim C3, as stated, is false: `hf_summarize` can raise an unhandled
fault past its boundary.  A 200 response whose body parses to the empty
JSON array makes `data[0]` raise an uncaught `IndexError`. -/
theorem hf_summarize_empty_array_raises :
    hf_summarize (.response 200 (.parsedJson (Json.arr []))) = .error .indexError := rfl

/-- Claim C3 (amended): every transport failure (including timeouts), every
status in `[400, 600)` and every malformed response body is converted to an
ordinary string `"Error calling Hugging Face API: <message>"` returned as a
success value (not a structured error object), with the underlying message
preserved; however the call is not raise-free: a parsed body that is an
empty array (or whose first element is a number, bool or null) raises an
uncaught `IndexError`/`TypeError` past the boundary — see the
counterexample. -/
theorem hf_summarize_request_errors_to_string
    (msg : PyStr) (status : Nat) (body : BodyOutcome) :
    hf_summarize (.transportError msg) = .ok (.str (hfErrorTag ++ msg))
    ∧ (400 ≤ status → status < 600 →
        hf_summarize (.response status body)
          = .ok (.str (hfErrorTag ++ httpErrorMessage status)))
    ∧ (status < 400 →
        hf_summarize (.response status (.malformedJson msg))
          = .ok (.str (hfErrorTag ++ msg))) := by
  refine ⟨rfl, ?_, ?_⟩
  · intro h4 h6
    simp [hf_summarize, if_pos (And.intro h4 h6)]
  · intro hlow
    have hns : ¬(400 ≤ status ∧ status < 600) := by omega
    simp [hf_summarize, if_neg hns]

/-- Witness for C3: a transport error with message `"down"`, a 404
response, and a 200 response with a malformed body. -/
theorem hf_summarize_request_errors_to_string_witness :
    hf_summarize (.transportError "down".toList)
      = .ok (.str (hfErrorTag ++ "down".toList))
    ∧ hf_summarize (.response 404 (.parsedJson Json.null))
      = .ok (.str (hfErrorTag ++ httpErrorMessage 404))
    ∧ hf_summarize (.response 200 (.malformedJson "bad".toList))
      = .ok (.str (hfErrorTag ++ "bad".toList)) :=
  ⟨(hf_summarize_request_errors_to_string "down".toList 404 (.parsedJson Json.null)).1,
   (hf_summarize_request_errors_to_string "down".toList 404
      (.parsedJson Json.null)).2.1 (by decide) (by decide),
   (hf_summarize_request_errors_to_string "bad".toList 200
      (.parsedJson Json.null)).2.2 (by decide)⟩

/-- Claim C4 (code bug): the code has no `InvalidConfiguration` check at
all.  At the failing input `text = "a"`, `max_length = 1`, `overlap = 1`
(so `overlap >= max_length`), the advance stride is 0 and the
`while start < len(text)` loop never exits: for every iteration bound the
loop is still running, so `chunk_text` neither rejects the configuration
nor terminates, where the claim says it must fail with
`InvalidConfiguration` before producing any chunk. -/
theorem chunk_text_zero_stride_never_terminates :
    ∀ fuel : Nat, chunkLoopFuel ['a'] 1 1 fuel 0 = none := by
  intro fuel
  induction fuel with
  | zero => rfl
  | succ fuel ih => simp [chunkLoopFuel, ih]

/-- Claim C5, as stated, is false: the remote pipeline does not trim.
With a single chunk whose summarization succeeds with the string `" s"`
(leading whitespace), `summarize_long_text` returns `" s"` unchanged,
whereas the trimmed space-join of the chunk summaries is `"s"`. -/
theorem summarize_long_text_not_trimmed :
    summarize_long_text
      (fun _ => hf_summarize (.response 200 (.parsedJson
        (.arr [.obj [(summary_text_key, .str " s".toList)]]))))
      "hi".toList = .ok " s".toList
    ∧ pyStrip " s".toList = "s".toList
    ∧ " s".toList ≠ "s".toList := by
  refine ⟨rfl, rfl, ?_⟩
  decide

/-- Claim C5 (amended): when every chunk's summarization succeeds, the
local pipeline (src/app.py `summarize_text`) returns the chunk summaries
joined in original chunk order with a single separating space and the
final string stripped of leading/trailing whitespace — but the remote
pipeline (src/api.py `summarize_long_text`) returns the space-join in
original order WITHOUT the final trim (see the counterexample). -/
theorem pipeline_join_policies :
    (∀ (f : PyStr → PyStr) (text : PyStr),
      summarize_long_text (fun c => .ok (.str (f c))) text =
        .ok (pyJoin [' '] ((chunk_text text 1000 100).map f)))
    ∧ (∀ (summarizer : PyStr → Nat → Nat → Bool → PyStr) (text : PyStr),
      (summarize_text summarizer text).1 =
        pyStrip (pyJoin [' '] ((app_chunks text).map (fun c => summarizer c 130 30 false)))) :=
  ⟨summarize_long_text_all_ok, summarize_text_final⟩

/-- Claim C6 (confirmed): chunking the empty string yields zero chunks
(whatever the configuration), and the chunked remote pipeline on empty
input returns the empty string successfully, whatever the backend — no
backend call is even reachable since there are no chunks. -/
theorem empty_input_zero_chunks_empty_output :
    (∀ max_length overlap : Nat, chunk_text [] max_length overlap = [])
    ∧ (∀ backend : PyStr → Except PyExn Json, summarize_long_text backend [] = .ok []) :=
  ⟨fun _ _ => rfl, fun _ => rfl⟩

/-- Claim C7 (confirmed): a missing or empty `text` field on
`POST /summarize` or `POST /humanize` yields status 400 with body
`{"error": "No text provided"}` and zero backend calls, for every
backend. -/
theorem missing_text_returns_400_no_backend_call
    (backend : PyStr → Except PyExn Json) :
    summarize_api backend none = (⟨400, noTextBody⟩, 0)
    ∧ summarize_api backend (some []) = (⟨400, noTextBody⟩, 0)
    ∧ humanize_api backend none = (⟨400, noTextBody⟩, 0)
    ∧ humanize_api backend (some []) = (⟨400, noTextBody⟩, 0) :=
  ⟨rfl, rfl, rfl, rfl⟩

/-- Claim C8 (confirmed): in src/app.py, every model invocation made by
`summarize_text` carries `max_length=130, min_length=30, do_sample=False`
(one call per chunk, in chunk order), and `humanize_text` makes exactly
one invocation with `max_length=200, min_length=50, do_sample=True`. -/
theorem intent_backend_options
    (summarizer : PyStr → Nat → Nat → Bool → PyStr) (text : PyStr) :
    (summarize_text summarizer text).2
        = (app_chunks text).map (fun c => ⟨c, 130, 30, false⟩)
    ∧ (humanize_text summarizer text).2 = [⟨text, 200, 50, true⟩] :=
  ⟨summarize_text_calls summarizer text, rfl⟩

/-- Claim C9 (confirmed): for every valid configuration the chunking loop
terminates — `text.length + 1` iterations always complete, yielding
exactly the list `chunk_text` returns — and the number of chunks equals
`ceil(len(text) / (max_length - overlap))`. -/
theorem chunk_count_and_termination (text : PyStr) (max_length overlap : Nat)
    (h : overlap < max_length) :
    chunkLoopFuel text max_length overlap (text.length + 1) 0
      = some (chunk_text text max_length overlap)
    ∧ (chunk_text text max_length overlap).length
      = (text.length + (max_length - overlap) - 1) / (max_length - overlap) := by
  have hs : 0 < max_length - overlap := by omega
  have hfuel : (text.length - 0 + (max_length - overlap) - 1) / (max_length - overlap)
      < text.length + 1 := by
    rw [Nat.sub_zero]; exact numChunks_lt _ _ hs
  have hcf := chunkLoopFuel_closed_form text max_length overlap h (text.length + 1) 0 hfuel
  constructor
  · rw [hcf, chunk_text, hcf]
    rfl
  · rw [chunk_text_eq_map text max_length overlap h]
    simp

/-- Witness for C9 at text `"abc"`, `max_length = 2`, `overlap = 1`:
the loop finishes and yields `ceil(3/1) = 3` chunks. -/
theorem chunk_count_and_termination_witness :
    chunkLoopFuel "abc".toList 2 1 ("abc".toList.length + 1) 0
      = some (chunk_text "abc".toList 2 1)
    ∧ (chunk_text "abc".toList 2 1).length
      = ("abc".toList.length + (2 - 1) - 1) / (2 - 1) :=
  chunk_count_and_termination "abc".toList 2 1 (by decide)

/-- Claim C10 (confirmed): a transport-level failure makes the backend
return the ordinary string `"Error calling Hugging Face API: <message>"`
as a success value; a pipeline run whose chunk calls all fail that way
returns the space-join of those error strings at the chunks' positions,
exactly as successful results would be joined — indeed the run is
indistinguishable from one whose backend successfully returned the same
strings, so no separate record of failed chunk indices exists. -/
theorem transport_error_inline_string_policy
    (msgs : PyStr → PyStr) (text : PyStr) :
    (∀ m : PyStr, hf_summarize (.transportError m) = .ok (.str (hfErrorTag ++ m)))
    ∧ summarize_long_text (fun c => hf_summarize (.transportError (msgs c))) text =
        .ok (pyJoin [' '] ((chunk_text text 1000 100).map (fun c => hfErrorTag ++ msgs c)))
    ∧ summarize_long_text (fun c => hf_summarize (.transportError (msgs c))) text =
        summarize_long_text (fun c => .ok (.str (hfErrorTag ++ msgs c))) text := by
  have hfun : (fun c => hf_summarize (.transportError (msgs c)))
      = (fun c => Except.ok (Json.str (hfErrorTag ++ msgs c))) :=
    funext fun c => hf_transport (msgs c)
  refine ⟨fun m => hf_transport m, ?_, ?_⟩
  · rw [hfun]
    exact summarize_long_text_all_ok (fun c => hfErrorTag ++ msgs c) text
  · rw [hfun]
